import Mathlib

set_option maxHeartbeats 1000000

/-!
Shallow embedding of `src/dv2plex/bin/windv/WinDVCaptureBridge.cpp`.

Modelling conventions:
* Wide strings (`std::wstring`, `CStringA`, `CStringW`, `wchar_t*`) are
  modelled as `List Char`; the ANSI/wide conversions in the source are the
  identity in the model.  Nullable `wchar_t*` fields become `Option (List Char)`.
* The Windows filesystem is modelled as the list of existing directory paths;
  `GetFileAttributesW` reports a directory exactly when the path is in the
  list and `CreateDirectoryW` behaves as on a healthy disk (it succeeds when
  the directory is new and fails with `ERROR_ALREADY_EXISTS` otherwise).
* External collaborators (`CDVInput`, `CDVQueue`, `CMonitor`, `CAVIWriter`,
  `AfxBeginThread`) are represented by presence flags on the engine state plus
  an environment record (`StartEnv`) that says which construction step throws,
  which sample size the media type reports, and whether the thread starts.
* The session mutex serialises the control surface; in this sequential
  embedding every modelled call runs in isolation, so the mutex itself is not
  represented.  The consumer loop (`CaptureThread`) runs on its own thread and
  is modelled separately (`CaptureThreadRun`) as a function of the sequence of
  observations it makes (state flag, dequeued entry, queue load, sink
  behaviour) on each iteration.
-/

/-- Wide string, the model of `std::wstring` / `CStringA` / `CStringW`. -/
abbrev WStr := List Char

/-- The filesystem: the set (as a list) of directory paths that exist. -/
abbrev FS := List WStr

/-- `WindvCaptureOptions` from `WinDVCaptureBridge.h`.  The three string
fields are nullable `wchar_t*` pointers, hence `Option WStr` (with
`some []` modelling a non-null pointer to an empty string). -/
structure WindvCaptureOptions where
  output_directory : Option WStr
  file_base_name : Option WStr
  datetime_format : Option WStr
  numeric_suffix_digits : Int
  type2_avi : Bool
  enable_preview : Bool
  queue_size : Int
deriving DecidableEq

/-- `WinDVCaptureEngine::NormalizedOptions`. -/
structure NormalizedOptions where
  basePath : WStr
  datetimeFormat : WStr
  numericDigits : Int
  type2Avi : Bool
  enablePreview : Bool
  queueSize : Int
deriving DecidableEq

/-- The in-class initialisers of `NormalizedOptions` (empty strings, digits 0,
type2Avi true, enablePreview true, queueSize 120). -/
def initialOptions : NormalizedOptions :=
  { basePath := []
    datetimeFormat := []
    numericDigits := 0
    type2Avi := true
    enablePreview := true
    queueSize := 120 }

/-- The path-separator test used by `Normalize` (`back() != L'\\' &&
back() != L'/'`) and by `find_last_of(L"\\/")` in `EnsureDirectories`. -/
def isSep (c : Char) : Bool := c == '\\' || c == '/'

/-- Fallback base file name (`L"capture"`). -/
def defaultBaseName : WStr := "capture".data

/-- Fallback timestamp pattern (`"%Y%m%d_%H%M%S"`). -/
def defaultDatetimeFormat : WStr := "%Y%m%d_%H%M%S".data

/-- The directory part of the base path built by `Normalize`: the caller's
output directory, with a `'\\'` appended when the last character is not
already a separator; empty when the pointer is null or the string empty. -/
def dirPart (od : Option WStr) : WStr :=
  match od with
  | none => []
  | some d =>
    if d.isEmpty then []
    else
      match d.getLast? with
      | none => d
      | some c => if isSep c then d else d ++ ['\\']

/-- The file-name part of the base path built by `Normalize`: the caller's
base name, or `defaultBaseName` when the pointer is null or the string empty. -/
def basePart (fb : Option WStr) : WStr :=
  match fb with
  | none => defaultBaseName
  | some b => if b.isEmpty then defaultBaseName else b

/-- The timestamp format chosen by `Normalize`. -/
def fmtPart (df : Option WStr) : WStr :=
  match df with
  | none => defaultDatetimeFormat
  | some f => if f.isEmpty then defaultDatetimeFormat else f

/-- `WinDVCaptureEngine::Normalize`. -/
def Normalize (o : WindvCaptureOptions) : NormalizedOptions :=
  { basePath := dirPart o.output_directory ++ basePart o.file_base_name
    datetimeFormat := fmtPart o.datetime_format
    numericDigits := if o.numeric_suffix_digits > 0 then o.numeric_suffix_digits else 0
    type2Avi := o.type2_avi
    enablePreview := o.enable_preview
    queueSize := if o.queue_size > 0 then o.queue_size else 120 }

/-- Index of the last separator in a path (`find_last_of(L"\\/")`), carrying
the in-bounds fact that `find_last_of` guarantees when it does not return
`npos`. -/
def findLastSep : (p : List Char) → Option (Fin p.length)
  | [] => none
  | c :: rest =>
    match findLastSep rest with
    | some i => some ⟨i.val + 1, Nat.succ_lt_succ i.isLt⟩
    | none => if isSep c then some ⟨0, Nat.succ_pos rest.length⟩ else none

/-- The parent directory of a path: everything before the last separator
(`path.substr(0, pos)`), or empty when there is no separator. -/
def parentDir (p : WStr) : WStr :=
  match findLastSep p with
  | none => []
  | some i => p.take i.val

/-- Worker for `ancestors`, structurally recursive on a fuel bound.  The
parent of a path is strictly shorter, so any fuel at and above `p.length`
yields the same result (`ancestorsFuel_congr`); the fuel is purely a
termination device keeping the function computable. -/
def ancestorsFuel : Nat → WStr → List WStr
  | 0, _ => []
  | fuel + 1, p =>
    match findLastSep p with
    | none => []
    | some i =>
      if p.take i.val = [] then []
      else ancestorsFuel fuel (p.take i.val) ++ [p.take i.val]

/-- The chain of ancestor directories of a target file path, outermost first:
exactly the directories that `WinDVCaptureEngine::EnsureDirectories` walks. -/
def ancestors (p : WStr) : List WStr := ancestorsFuel p.length p

/-- Worker for `EnsureDirectories`, structurally recursive on a fuel bound
that dominates the path length (see `ancestorsFuel`). -/
def ensureDirectoriesFuel : Nat → FS → WStr → Bool × FS
  | 0, fs, _ => (true, fs)
  | fuel + 1, fs, path =>
    if path = [] then (true, fs)
    else
      match findLastSep path with
      | none => (true, fs)
      | some i =>
        if path.take i.val = [] then (true, fs)
        else if path.take i.val ∈ fs then (true, fs)
        else
          match ensureDirectoriesFuel fuel fs (path.take i.val) with
          | (false, fs2) => (false, fs2)
          | (true, fs2) =>
            if path.take i.val ∈ fs2 then (true, fs2)
            else (true, fs2 ++ [path.take i.val])

/-- `WinDVCaptureEngine::EnsureDirectories` over the healthy-filesystem model.
Returns the success flag and the updated filesystem.  The structure mirrors
the source (see `EnsureDirectories_eq` for the one-step unfolding): empty
path, separator-free path and empty parent succeed trivially; an existing
directory (`GetFileAttributesW` reports `FILE_ATTRIBUTE_DIRECTORY`) succeeds;
otherwise the parent chain is ensured recursively and then the directory is
created, with `ERROR_ALREADY_EXISTS` treated as success. -/
def EnsureDirectories (fs : FS) (path : WStr) : Bool × FS :=
  ensureDirectoriesFuel path.length fs path

/-- The ancestors of `path` that do not yet exist in `fs` — the directories
directory preparation is expected to create. -/
def missingAncestors (fs : FS) (path : WStr) : List WStr :=
  (ancestors path).filter (fun d => decide (d ∉ fs))

/-- A well-formed filesystem: the parent of every existing directory exists
(or is empty, i.e. the directory is a root-level entry). -/
def AncestorClosed (fs : FS) : Prop :=
  ∀ p ∈ fs, parentDir p = [] ∨ parentDir p ∈ fs

/-- `WinDVCaptureEngine::State`. -/
inductive EngState
  | Idle
  | Capturing
  | Stopping
deriving DecidableEq

/-- One entry of the `CDVQueue`: timestamp, whether the payload pointer is
null, and the length.  The sentinel enqueued by `StopCapture` is
`⟨-1, true, 0⟩`. -/
structure QFrame where
  ts : Int
  isNull : Bool
  len : Nat
deriving DecidableEq

/-- The sentinel frame `Put(-1, nullptr, 0)` enqueued during `StopCapture`. -/
def sentinelFrame : QFrame := ⟨-1, true, 0⟩

/-- The fields of `WinDVCaptureEngine`.  Collaborator pointers become
presence flags (`m_queue` keeps its contents as well, since `HandleFrame`
and `StopCapture` enqueue into it). -/
structure Engine where
  state : EngState
  comInitialized : Bool
  device : WStr
  previewWindow : Option Nat
  dvInput : Bool
  monitor : Bool
  writer : Bool
  queue : Option (List QFrame)
  captureThread : Bool
  sampleSize : Int
  options : NormalizedOptions
  lastError : String
deriving DecidableEq

/-- The engine as built by the `WinDVCaptureEngine` constructor. -/
def engine0 : Engine :=
  { state := EngState.Idle
    comInitialized := false
    device := []
    previewWindow := none
    dvInput := false
    monitor := false
    writer := false
    queue := none
    captureThread := false
    sampleSize := 0
    options := initialOptions
    lastError := "" }

/-- `WinDVCaptureEngine::SetError`: overwrite the last-error slot. -/
def SetError (e : Engine) (msg : String) : Engine :=
  { e with lastError := msg }

/-- `WinDVCaptureEngine::IsCapturing` (`m_state.load() == State::Capturing`). -/
def IsCapturing (e : Engine) : Bool := decide (e.state = EngState.Capturing)

/-- `WinDVCaptureEngine::StopCapture`.  Idle is an immediate return.
Otherwise the call stores `Stopping`, enqueues `sentinelFrame` into the queue
when one exists (`m_queue->Put(-1, nullptr, 0)`), joins and releases the
consumer thread, stops and deletes the collaborators in source order (capture
source, preview renderer, writer, queue) and stores `Idle`.  The intermediate
`Stopping` state and the sentinel enqueue happen strictly inside the call and
the queue holding the sentinel is itself destroyed before return, so the
post-state simply has every collaborator pointer null and state `Idle`; the
sentinel's effect on the consumer loop is modelled in `CaptureThreadRun`.
The `if (m_captureThread)` / `if (m_dvInput)` / … nullity guards in the
source only skip work on already-null pointers, so they do not change the
post-state. -/
def StopCapture (e : Engine) : Engine :=
  if e.state = EngState.Idle then e
  else
    { e with
      state := EngState.Idle
      queue := none
      captureThread := false
      dvInput := false
      monitor := false
      writer := false }

/-- `WinDVCaptureEngine::HandleFrame` (the `CFrameHandler` callback invoked by
the capture source's delivery thread): with no queue the frame is dropped,
otherwise it is appended (`CDVQueue::Put`). -/
def HandleFrame (e : Engine) (duration : Int) (dataNull : Bool) (len : Nat) : Engine :=
  match e.queue with
  | none => e
  | some q => { e with queue := some (q ++ [⟨duration, dataNull, len⟩]) }

/-- Which construction step inside the `try` block of `StartCapture` throws:
`new CDVInput` / `GetMediaType` (device open failure), `new CMonitor`, or
`new CAVIWriter` (writer open failure). -/
inductive CtorThrow
  | noThrow
  | atDvInput
  | atMonitor
  | atWriter
deriving DecidableEq

/-- The environment a `StartCapture` call runs against: whether
`CoInitializeEx` would succeed, which collaborator constructor throws (and
with which message), the sample size the negotiated media type reports, and
whether `AfxBeginThread` returns a thread. -/
structure StartEnv where
  coInitOk : Bool
  throwSite : CtorThrow
  throwMsg : String
  reportedSampleSize : Int
  threadOk : Bool
deriving DecidableEq

/-- `WinDVCaptureEngine::StartCapture`.  Returns the success flag, the updated
filesystem and the updated engine.  Mirrors the source order: device check;
`Initialize` (CoInitializeEx once); `Normalize`; `EnsureDirectories`; state
check; then the `try` block that builds the capture source, floors the sample
size at 144000, builds the queue, the optional preview renderer and the
writer, stores the options, starts delivery, flips the state to `Capturing`
and spawns the consumer thread.  Every failure handler does
`SetError` followed by `StopCapture` exactly as in the source (for `CDVInput`
construction the member is still null when the exception leaves the `new`
expression, so nothing has been assigned). -/
def StartCapture (env : StartEnv) (fs : FS) (e : Engine) (o : WindvCaptureOptions) :
    Bool × FS × Engine :=
  if e.device.isEmpty then
    (false, fs, SetError e "Kein DirectShow-Gerät konfiguriert.")
  else
    let initRes : Bool × Engine :=
      if e.comInitialized then (true, e)
      else if env.coInitOk then (true, { e with comInitialized := true })
      else (false, SetError e "CoInitializeEx fehlgeschlagen.")
    match initRes with
    | (false, e1) => (false, fs, e1)
    | (true, e1) =>
      let normalized := Normalize o
      let fs1 := (EnsureDirectories fs normalized.basePath).2
      if e1.state ≠ EngState.Idle then
        (false, fs1, SetError e1 "Aufnahme läuft bereits.")
      else if env.throwSite = CtorThrow.atDvInput then
        (false, fs1, StopCapture (SetError e1 env.throwMsg))
      else
        let e2 := { e1 with dvInput := true }
        let ss := if env.reportedSampleSize < 144000 then 144000 else env.reportedSampleSize
        let e3 := { e2 with sampleSize := ss, queue := some [] }
        if env.throwSite = CtorThrow.atMonitor ∧ normalized.enablePreview
            ∧ e3.previewWindow.isSome then
          (false, fs1, StopCapture (SetError e3 env.throwMsg))
        else
          let e4 :=
            if normalized.enablePreview ∧ e3.previewWindow.isSome then
              { e3 with monitor := true }
            else e3
          if env.throwSite = CtorThrow.atWriter then
            (false, fs1, StopCapture (SetError e4 env.throwMsg))
          else
            let e5 := { e4 with writer := true }
            let e6 := { e5 with options := normalized }
            let e7 := { e6 with state := EngState.Capturing }
            if ¬ env.threadOk then
              (false, fs1, StopCapture (SetError e7 "Capture-Thread konnte nicht gestartet werden."))
            else
              (true, fs1, { e7 with captureThread := true })

/-- `WindvBridge_StartCapture`: the exported C entry point.  A null options
pointer returns `-1` before the engine is even looked up; otherwise the
engine call is made and its boolean mapped to `0` / `-1`. -/
def WindvBridge_StartCapture (opts : Option WindvCaptureOptions) (env : StartEnv)
    (fs : FS) (e : Engine) : Int × FS × Engine :=
  match opts with
  | none => (-1, fs, e)
  | some o =>
    match StartCapture env fs e o with
    | (ok, fs1, e1) => (if ok then 0 else -1, fs1, e1)

/-- The configuration the consumer loop reads: which collaborator pointers
are non-null and the normalized preview flag and queue capacity
(`m_monitor`, `m_writer`, `m_options.enablePreview`, `m_options.queueSize`). -/
structure LoopCfg where
  hasMonitor : Bool
  hasWriter : Bool
  enablePreview : Bool
  queueSize : Int
deriving DecidableEq

/-- What one iteration of `WinDVCaptureEngine::CaptureThread` observes:
the state flag at the loop head, the return value of `CDVQueue::Get`, the
dequeued timestamp / payload / length (`payload = none` models a null buffer,
i.e. the sentinel), the queue load `m_load` read at the preview throttle, and
whether each sink call would raise an exception on this frame. -/
structure LoopStep where
  capturing : Bool
  got : Bool
  ts : Int
  payload : Option Nat
  len : Nat
  load : Int
  previewThrows : Bool
  writerThrows : Bool
deriving DecidableEq

/-- A sink invocation made by the consumer loop, with the arguments passed to
`HandleFrame` of the sink. -/
inductive SinkEvent
  | preview (ts : Int) (payload : Option Nat) (len : Nat)
  | writer (ts : Int) (payload : Option Nat) (len : Nat)
deriving DecidableEq

/-- The payload argument a sink invocation received. -/
def eventPayload : SinkEvent → Option Nat
  | SinkEvent.preview _ p _ => p
  | SinkEvent.writer _ p _ => p

/-- How a modelled run of the consumer loop ended: the `while` condition saw a
state other than `Capturing`; the null-buffer (sentinel) `break`; the supplied
observation trace ran out; or a sink exception escaped the loop (the source
has no handler around the sink calls). -/
inductive LoopExit
  | stateExit
  | sentinelExit
  | outOfInput
  | sinkException
deriving DecidableEq

/-- `WinDVCaptureEngine::CaptureThread` as a function of the observation
trace: returns every sink invocation the loop makes, in order, and how the
run ended.  Mirrors the loop body: `continue` when `Get` returns false;
`break` when the buffer is null; preview sink first, guarded by
`m_monitor && m_options.enablePreview` and by the load throttle
`m_load < m_options.queueSize / 2`; then the writer sink whenever `m_writer`
is non-null.  A throwing sink call still appears as an invocation (the sink
did receive the frame) but ends the run, since nothing in the source catches
it. -/
def CaptureThreadRun (cfg : LoopCfg) : List LoopStep → List SinkEvent × LoopExit
  | [] => ([], LoopExit.outOfInput)
  | s :: rest =>
    if ¬ s.capturing then ([], LoopExit.stateExit)
    else if ¬ s.got then CaptureThreadRun cfg rest
    else
      match s.payload with
      | none => ([], LoopExit.sentinelExit)
      | some p =>
        let previewOn := cfg.hasMonitor ∧ cfg.enablePreview ∧ s.load < cfg.queueSize / 2
        let pevs := if previewOn then [SinkEvent.preview s.ts (some p) s.len] else []
        if previewOn ∧ s.previewThrows then (pevs, LoopExit.sinkException)
        else
          let wevs := if cfg.hasWriter then [SinkEvent.writer s.ts (some p) s.len] else []
          if cfg.hasWriter ∧ s.writerThrows then (pevs ++ wevs, LoopExit.sinkException)
          else
            match CaptureThreadRun cfg rest with
            | (evs, ex) => (pevs ++ wevs ++ evs, ex)

/-! Concrete instances used to exercise the definitions. -/

/-- An idle engine with COM initialised, a device configured and a preview
window set — the state right before a normal `StartCapture`. -/
def readyEngine : Engine :=
  { engine0 with comInitialized := true, device := ['d', 'v'], previewWindow := some 1 }

/-- A capturing engine: the state after a successful `StartCapture`. -/
def capturingEngine : Engine :=
  { readyEngine with
    state := EngState.Capturing
    dvInput := true
    monitor := true
    writer := true
    queue := some []
    captureThread := true }

/-- Options with every string absent and a small queue. -/
def plainOpts : WindvCaptureOptions :=
  { output_directory := none
    file_base_name := none
    datetime_format := none
    numeric_suffix_digits := 0
    type2_avi := true
    enable_preview := true
    queue_size := 4 }

/-- Options naming the output directory `a`. -/
def dirOpts : WindvCaptureOptions :=
  { plainOpts with output_directory := some ['a'] }

/-- An environment where every external step succeeds. -/
def okEnv : StartEnv :=
  { coInitOk := true
    throwSite := CtorThrow.noThrow
    throwMsg := ""
    reportedSampleSize := 0
    threadOk := true }

/-- An environment where `new CAVIWriter` throws (writer open failure). -/
def writerFailEnv : StartEnv :=
  { okEnv with
    throwSite := CtorThrow.atWriter
    throwMsg := "AVI-Datei konnte nicht geöffnet werden." }

/-- Consumer-loop configuration with only the writer sink attached. -/
def writerOnlyCfg : LoopCfg :=
  { hasMonitor := false, hasWriter := true, enablePreview := false, queueSize := 8 }

/-- Consumer-loop configuration with both sinks attached and preview on. -/
def bothSinksCfg : LoopCfg :=
  { hasMonitor := true, hasWriter := true, enablePreview := true, queueSize := 8 }

/-- The loop observation for the sentinel dequeued after `StopCapture`. -/
def sentinelStep : LoopStep :=
  { capturing := true, got := true, ts := -1, payload := none, len := 0
    load := 0, previewThrows := false, writerThrows := false }

/-- A well-behaved frame observation. -/
def frameStep : LoopStep :=
  { capturing := true, got := true, ts := 3, payload := some 7, len := 2
    load := 1, previewThrows := false, writerThrows := false }

/-- A frame observation whose preview-sink call raises an exception. -/
def previewThrowStep : LoopStep :=
  { capturing := true, got := true, ts := 10, payload := some 1, len := 5
    load := 0, previewThrows := true, writerThrows := false }

/-- A second well-behaved frame, queued behind `previewThrowStep`. -/
def laterFrameStep : LoopStep :=
  { capturing := true, got := true, ts := 11, payload := some 2, len := 5
    load := 0, previewThrows := false, writerThrows := false }

/-- Options exercising every normalisation fallback at once. -/
def fallbackOpts : WindvCaptureOptions :=
  { output_directory := some ['a']
    file_base_name := none
    datetime_format := some []
    numeric_suffix_digits := -3
    type2_avi := false
    enable_preview := false
    queue_size := 0 }

/-- A target file path `a\b\c` with two missing ancestors `a` and `a\b`. -/
def nestedPath : WStr := ['a', '\\', 'b', '\\', 'c']

/-- The session invariant relating the state flag to the consumer thread
handle: an `Idle` engine holds no thread handle.  It holds for the freshly
constructed engine and is preserved by every modelled operation
(`engine0_idleNoThread`, `stopCapture_idleNoThread`,
`startCapture_idleNoThread`, `handleFrame_idleNoThread`). -/
def IdleNoThread (e : Engine) : Prop :=
  e.state = EngState.Idle → e.captureThread = false

/-! Fuel elimination: any fuel at or above the path length gives the same
result, and the resulting one-step unfolding lemmas that mirror the source
recursion of `EnsureDirectories`. -/

theorem take_length_le {p : WStr} (i : Fin p.length) {n : Nat} (h : p.length ≤ n + 1) :
    (p.take i.val).length ≤ n := by
  simp only [List.length_take]
  have : i.val ≤ n := by omega
  exact le_trans (Nat.min_le_left _ _) this

theorem ancestorsFuel_congr : ∀ (f1 f2 : Nat) (p : WStr), p.length ≤ f1 → p.length ≤ f2 →
    ancestorsFuel f1 p = ancestorsFuel f2 p := by
  intro f1
  induction f1 with
  | zero =>
    intro f2 p h1 _
    have hp : p = [] := List.length_eq_zero.mp (Nat.le_zero.mp h1)
    subst hp
    cases f2 with
    | zero => rfl
    | succ m => rfl
  | succ n ih =>
    intro f2 p h1 h2
    cases f2 with
    | zero =>
      have hp : p = [] := List.length_eq_zero.mp (Nat.le_zero.mp h2)
      subst hp
      rfl
    | succ m =>
      simp only [ancestorsFuel]
      cases hfi : findLastSep p with
      | none => rfl
      | some i =>
        dsimp only
        by_cases htk : p.take i.val = []
        · rw [if_pos htk, if_pos htk]
        · rw [if_neg htk, if_neg htk,
            ih m (p.take i.val) (take_length_le i h1) (take_length_le i h2)]

theorem ancestors_eq (p : WStr) :
    ancestors p =
      match findLastSep p with
      | none => []
      | some i =>
        if p.take i.val = [] then []
        else ancestors (p.take i.val) ++ [p.take i.val] := by
  cases p with
  | nil => rfl
  | cons c rest =>
    show ancestorsFuel (rest.length + 1) (c :: rest) = _
    simp only [ancestorsFuel]
    cases hfi : findLastSep (c :: rest) with
    | none => rfl
    | some i =>
      dsimp only
      by_cases htk : (c :: rest).take i.val = []
      · rw [if_pos htk, if_pos htk]
      · rw [if_neg htk, if_neg htk]
        show ancestorsFuel rest.length _ ++ _ = ancestors _ ++ _
        rw [ancestorsFuel_congr rest.length ((c :: rest).take i.val).length _
          (take_length_le i (le_refl _)) (le_refl _)]
        rfl

theorem ensureDirectoriesFuel_congr :
    ∀ (f1 f2 : Nat) (fs : FS) (p : WStr), p.length ≤ f1 → p.length ≤ f2 →
      ensureDirectoriesFuel f1 fs p = ensureDirectoriesFuel f2 fs p := by
  intro f1
  induction f1 with
  | zero =>
    intro f2 fs p h1 _
    have hp : p = [] := List.length_eq_zero.mp (Nat.le_zero.mp h1)
    subst hp
    cases f2 with
    | zero => rfl
    | succ m => rfl
  | succ n ih =>
    intro f2 fs p h1 h2
    cases f2 with
    | zero =>
      have hp : p = [] := List.length_eq_zero.mp (Nat.le_zero.mp h2)
      subst hp
      rfl
    | succ m =>
      simp only [ensureDirectoriesFuel]
      by_cases hp : p = []
      · rw [if_pos hp, if_pos hp]
      · rw [if_neg hp, if_neg hp]
        cases hfi : findLastSep p with
        | none => rfl
        | some i =>
          dsimp only
          by_cases htk : p.take i.val = []
          · rw [if_pos htk, if_pos htk]
          · rw [if_neg htk, if_neg htk]
            by_cases hmem : p.take i.val ∈ fs
            · rw [if_pos hmem, if_pos hmem]
            · rw [if_neg hmem, if_neg hmem,
                ih m fs (p.take i.val) (take_length_le i h1) (take_length_le i h2)]

theorem EnsureDirectories_eq (fs : FS) (path : WStr) :
    EnsureDirectories fs path =
      (if path = [] then (true, fs)
       else
         match findLastSep path with
         | none => (true, fs)
         | some i =>
           if path.take i.val = [] then (true, fs)
           else if path.take i.val ∈ fs then (true, fs)
           else
             match EnsureDirectories fs (path.take i.val) with
             | (false, fs2) => (false, fs2)
             | (true, fs2) =>
               if path.take i.val ∈ fs2 then (true, fs2)
               else (true, fs2 ++ [path.take i.val])) := by
  cases path with
  | nil => rfl
  | cons c rest =>
    show ensureDirectoriesFuel (rest.length + 1) fs (c :: rest) = _
    simp only [ensureDirectoriesFuel]
    simp only [if_neg (List.cons_ne_nil c rest)]
    cases hfi : findLastSep (c :: rest) with
    | none => rfl
    | some i =>
      dsimp only
      by_cases htk : (c :: rest).take i.val = []
      · rw [if_pos htk, if_pos htk]
      · rw [if_neg htk, if_neg htk]
        by_cases hmem : (c :: rest).take i.val ∈ fs
        · rw [if_pos hmem, if_pos hmem]
        · rw [if_neg hmem, if_neg hmem]
          show (match ensureDirectoriesFuel rest.length fs _ with
                | (false, fs2) => (false, fs2)
                | (true, fs2) => _) = _
          rw [ensureDirectoriesFuel_congr rest.length ((c :: rest).take i.val).length fs _
            (take_length_le i (le_refl _)) (le_refl _)]
          rfl

theorem mem_ancestorsFuel_length_lt :
    ∀ (fuel : Nat) (p : WStr), ∀ d ∈ ancestorsFuel fuel p, d.length < p.length := by
  intro fuel
  induction fuel with
  | zero => intro p d hd; exact absurd hd (List.not_mem_nil d)
  | succ n ih =>
    intro p d hd
    simp only [ancestorsFuel] at hd
    cases hfi : findLastSep p with
    | none => rw [hfi] at hd; exact absurd hd (List.not_mem_nil d)
    | some i =>
      rw [hfi] at hd
      dsimp only at hd
      by_cases htk : p.take i.val = []
      · rw [if_pos htk] at hd; exact absurd hd (List.not_mem_nil d)
      · rw [if_neg htk] at hd
        have hlt : (p.take i.val).length < p.length := by
          simp only [List.length_take]
          exact lt_of_le_of_lt (Nat.min_le_left _ _) i.isLt
        rcases List.mem_append.mp hd with h | h
        · exact lt_trans (ih (p.take i.val) d h) hlt
        · rw [List.mem_singleton.mp h]; exact hlt

theorem mem_ancestors_length_lt (p : WStr) : ∀ d ∈ ancestors p, d.length < p.length :=
  mem_ancestorsFuel_length_lt p.length p

theorem ancestorsFuel_subset_of_closed (fs : FS) (hcl : AncestorClosed fs) :
    ∀ (fuel : Nat) (p : WStr), p ∈ fs → ∀ d ∈ ancestorsFuel fuel p, d ∈ fs := by
  intro fuel
  induction fuel with
  | zero => intro p _ d hd; exact absurd hd (List.not_mem_nil d)
  | succ n ih =>
    intro p hp d hd
    simp only [ancestorsFuel] at hd
    cases hfi : findLastSep p with
    | none => rw [hfi] at hd; exact absurd hd (List.not_mem_nil d)
    | some i =>
      rw [hfi] at hd
      dsimp only at hd
      by_cases htk : p.take i.val = []
      · rw [if_pos htk] at hd; exact absurd hd (List.not_mem_nil d)
      · rw [if_neg htk] at hd
        have hpar : p.take i.val ∈ fs := by
          rcases hcl p hp with h | h
          · rw [parentDir, hfi] at h
            exact absurd h htk
          · rw [parentDir, hfi] at h
            exact h
        rcases List.mem_append.mp hd with h | h
        · exact ih (p.take i.val) hpar d h
        · rw [List.mem_singleton.mp h]; exact hpar

theorem ancestors_subset_of_closed (fs : FS) (hcl : AncestorClosed fs) (p : WStr)
    (hp : p ∈ fs) : ∀ d ∈ ancestors p, d ∈ fs :=
  ancestorsFuel_subset_of_closed fs hcl p.length p hp

theorem ancestorsFuel_pairwise :
    ∀ (fuel : Nat) (p : WStr),
      (ancestorsFuel fuel p).Pairwise (fun a b => a.length < b.length) := by
  intro fuel
  induction fuel with
  | zero => intro p; exact List.Pairwise.nil
  | succ n ih =>
    intro p
    simp only [ancestorsFuel]
    cases hfi : findLastSep p with
    | none => exact List.Pairwise.nil
    | some i =>
      dsimp only
      by_cases htk : p.take i.val = []
      · rw [if_pos htk]; exact List.Pairwise.nil
      · rw [if_neg htk]
        refine List.pairwise_append.mpr ⟨ih (p.take i.val), ?_, ?_⟩
        · simp
        · intro a ha b hb
          rw [List.mem_singleton.mp hb]
          exact mem_ancestorsFuel_length_lt n (p.take i.val) a ha

theorem ancestors_pairwise (p : WStr) :
    (ancestors p).Pairwise (fun a b => a.length < b.length) :=
  ancestorsFuel_pairwise p.length p

theorem ensureDirectoriesFuel_spec :
    ∀ (fuel : Nat) (fs : FS) (p : WStr), p.length ≤ fuel → AncestorClosed fs →
      ensureDirectoriesFuel fuel fs p = (true, fs ++ missingAncestors fs p) := by
  intro fuel
  induction fuel with
  | zero =>
    intro fs p h _
    have hp : p = [] := List.length_eq_zero.mp (Nat.le_zero.mp h)
    subst hp
    simp [ensureDirectoriesFuel, missingAncestors, ancestors, ancestorsFuel]
  | succ n ih =>
    intro fs p h hcl
    simp only [ensureDirectoriesFuel]
    by_cases hp : p = []
    · subst hp
      simp [missingAncestors, ancestors, ancestorsFuel]
    · rw [if_neg hp]
      cases hfi : findLastSep p with
      | none =>
        have hanc : ancestors p = [] := by
          rw [ancestors_eq, hfi]
        simp [missingAncestors, hanc]
      | some i =>
        dsimp only
        by_cases htk : p.take i.val = []
        · rw [if_pos htk]
          have hanc : ancestors p = [] := by
            rw [ancestors_eq, hfi]
            dsimp only
            rw [if_pos htk]
          simp [missingAncestors, hanc]
        · rw [if_neg htk]
          have hanc : ancestors p = ancestors (p.take i.val) ++ [p.take i.val] := by
            rw [ancestors_eq, hfi]
            dsimp only
            rw [if_neg htk]
          by_cases hmem : p.take i.val ∈ fs
          · rw [if_pos hmem]
            have hmiss : missingAncestors fs p = [] := by
              rw [missingAncestors, hanc]
              refine List.filter_eq_nil_iff.mpr ?_
              intro a ha
              rcases List.mem_append.mp ha with hx | hx
              · exact fun heq => of_decide_eq_true heq
                  (ancestors_subset_of_closed fs hcl _ hmem a hx)
              · exact fun heq => of_decide_eq_true heq
                  (List.mem_singleton.mp hx ▸ hmem)
            simp [hmiss]
          · rw [if_neg hmem]
            rw [ih fs (p.take i.val) (take_length_le i h) hcl]
            have hnotin : p.take i.val ∉ fs ++ missingAncestors fs (p.take i.val) := by
              intro hin
              rcases List.mem_append.mp hin with hx | hx
              · exact hmem hx
              · have := mem_ancestors_length_lt (p.take i.val) _
                  (List.mem_of_mem_filter hx)
                exact absurd this (lt_irrefl _)
            dsimp only
            rw [if_neg hnotin]
            have hmiss : missingAncestors fs p
                = missingAncestors fs (p.take i.val) ++ [p.take i.val] := by
              rw [missingAncestors, hanc, List.filter_append, missingAncestors]
              congr 1
              simp [hmem]
            rw [hmiss, List.append_assoc]

theorem EnsureDirectories_spec (fs : FS) (path : WStr) (hcl : AncestorClosed fs) :
    EnsureDirectories fs path = (true, fs ++ missingAncestors fs path) :=
  ensureDirectoriesFuel_spec path.length fs path (le_refl _) hcl

theorem EnsureDirectories_idem (fs : FS) (path : WStr) :
    EnsureDirectories (fs ++ missingAncestors fs path) path
      = (true, fs ++ missingAncestors fs path) := by
  rw [EnsureDirectories_eq]
  by_cases hp : path = []
  · rw [if_pos hp]
  · rw [if_neg hp]
    cases hfi : findLastSep path with
    | none => rfl
    | some i =>
      dsimp only
      by_cases htk : path.take i.val = []
      · rw [if_pos htk]
      · rw [if_neg htk]
        have hmem : path.take i.val ∈ fs ++ missingAncestors fs path := by
          by_cases hin : path.take i.val ∈ fs
          · exact List.mem_append.mpr (Or.inl hin)
          · refine List.mem_append.mpr (Or.inr ?_)
            rw [missingAncestors]
            refine List.mem_filter.mpr ⟨?_, ?_⟩
            · rw [ancestors_eq, hfi]
              dsimp only
              rw [if_neg htk]
              exact List.mem_append.mpr (Or.inr (List.mem_singleton.mpr rfl))
            · exact decide_eq_true hin
        rw [if_pos hmem]

/-- Claim C8: for a target file path with missing nested ancestor
directories over a well-formed filesystem, `EnsureDirectories` succeeds and
creates exactly the missing ancestors (`missingAncestors`), in order from
outermost to innermost (strictly increasing path length), each exactly once
(no duplicates, none already present); an existing directory at any level is
treated as success, and invoking the preparation again against the resulting
filesystem succeeds without creating anything. -/
theorem claim_C8 (fs : FS) (path : WStr) (hcl : AncestorClosed fs) :
    EnsureDirectories fs path = (true, fs ++ missingAncestors fs path) ∧
    (missingAncestors fs path).Pairwise (fun a b => a.length < b.length) ∧
    (missingAncestors fs path).Nodup ∧
    (∀ d ∈ missingAncestors fs path, d ∉ fs) ∧
    EnsureDirectories (fs ++ missingAncestors fs path) path
      = (true, fs ++ missingAncestors fs path) := by
  refine ⟨EnsureDirectories_spec fs path hcl, ?_, ?_, ?_, EnsureDirectories_idem fs path⟩
  · exact (ancestors_pairwise path).filter _
  · exact ((ancestors_pairwise path).filter _).imp fun h he => absurd (he ▸ h) (lt_irrefl _)
  · intro d hd
    exact of_decide_eq_true (List.mem_filter.mp hd).2

/-- Witness for `claim_C8` at the concrete path `a\b\c` over the empty
filesystem. -/
theorem claim_C8_witness :
    EnsureDirectories [] nestedPath = (true, [] ++ missingAncestors [] nestedPath) ∧
    (missingAncestors [] nestedPath).Pairwise (fun a b => a.length < b.length) ∧
    (missingAncestors [] nestedPath).Nodup ∧
    (∀ d ∈ missingAncestors [] nestedPath, d ∉ ([] : FS)) ∧
    EnsureDirectories ([] ++ missingAncestors [] nestedPath) nestedPath
      = (true, [] ++ missingAncestors [] nestedPath) :=
  claim_C8 [] nestedPath (fun p hp => absurd hp (List.not_mem_nil p))

theorem captureThreadRun_no_null_payload (cfg : LoopCfg) :
    ∀ (steps : List LoopStep), ∀ ev ∈ (CaptureThreadRun cfg steps).1, eventPayload ev ≠ none := by
  intro steps
  induction steps with
  | nil => simp [CaptureThreadRun]
  | cons s rest ih =>
    intro ev hev
    rcases hrun : CaptureThreadRun cfg rest with ⟨evs, ex⟩
    rw [hrun] at ih
    simp only [CaptureThreadRun, hrun] at hev
    split at hev
    · exact absurd hev (List.not_mem_nil ev)
    · split at hev
      · exact ih ev hev
      · split at hev
        · exact absurd hev (List.not_mem_nil ev)
        · rename_i p hpl
          split at hev
          · rcases List.mem_ite_nil_right.mp hev with ⟨_, hx⟩
            rw [List.mem_singleton.mp hx]
            simp [eventPayload]
          · split at hev
            · rcases List.mem_append.mp hev with hx | hx
              · rcases List.mem_ite_nil_right.mp hx with ⟨_, hy⟩
                rw [List.mem_singleton.mp hy]
                simp [eventPayload]
              · rcases List.mem_ite_nil_right.mp hx with ⟨_, hy⟩
                rw [List.mem_singleton.mp hy]
                simp [eventPayload]
            · rcases List.mem_append.mp hev with hx | hx
              · rcases List.mem_append.mp hx with hy | hy
                · rcases List.mem_ite_nil_right.mp hy with ⟨_, hz⟩
                  rw [List.mem_singleton.mp hz]
                  simp [eventPayload]
                · rcases List.mem_ite_nil_right.mp hy with ⟨_, hz⟩
                  rw [List.mem_singleton.mp hz]
                  simp [eventPayload]
              · exact ih ev hx

/-- Claim C4: the consumer loop never forwards the sentinel to either sink —
every sink invocation of any run carries a non-null payload, and dequeuing
the sentinel (null payload) makes the loop exit immediately with no sink
invocation at all. -/
theorem claim_C4 (cfg : LoopCfg) :
    (∀ steps, ∀ ev ∈ (CaptureThreadRun cfg steps).1, eventPayload ev ≠ none) ∧
    (∀ (s : LoopStep) (rest : List LoopStep),
      s.capturing = true → s.got = true → s.payload = none →
      CaptureThreadRun cfg (s :: rest) = ([], LoopExit.sentinelExit)) := by
  refine ⟨captureThreadRun_no_null_payload cfg, ?_⟩
  intro s rest hc hg hp
  simp only [CaptureThreadRun]
  rw [if_neg (not_not_intro hc), if_neg (not_not_intro hg), hp]

/-- Witness for `claim_C4`: the sentinel observation ends a concrete run at
once, and a concrete forwarded event has a non-null payload. -/
theorem claim_C4_witness :
    CaptureThreadRun writerOnlyCfg [sentinelStep, frameStep] = ([], LoopExit.sentinelExit) ∧
    eventPayload (SinkEvent.writer 3 (some 7) 2) ≠ none :=
  ⟨(claim_C4 writerOnlyCfg).2 sentinelStep [frameStep] rfl rfl rfl,
   (claim_C4 writerOnlyCfg).1 [frameStep] (SinkEvent.writer 3 (some 7) 2) (by decide)⟩

/-- Claim C5: for a non-sentinel frame the fan-out is preview sink first and
writer sink second; the preview sink fires only when a preview renderer is
attached, preview is enabled and the observed queue load is strictly below
half the configured capacity, while the writer sink (when present) receives
the frame regardless of load. -/
theorem claim_C5 (cfg : LoopCfg) (s : LoopStep) (rest : List LoopStep) (p : Nat)
    (hc : s.capturing = true) (hg : s.got = true) (hp : s.payload = some p)
    (hpt : s.previewThrows = false) (hwt : s.writerThrows = false) :
    (CaptureThreadRun cfg (s :: rest)).1 =
      (if cfg.hasMonitor ∧ cfg.enablePreview ∧ s.load < cfg.queueSize / 2
        then [SinkEvent.preview s.ts (some p) s.len] else []) ++
      (if cfg.hasWriter then [SinkEvent.writer s.ts (some p) s.len] else []) ++
      (CaptureThreadRun cfg rest).1 := by
  have hpt' : ¬ s.previewThrows = true := by rw [hpt]; exact Bool.false_ne_true
  have hwt' : ¬ s.writerThrows = true := by rw [hwt]; exact Bool.false_ne_true
  rcases hrun : CaptureThreadRun cfg rest with ⟨evs, ex⟩
  simp only [CaptureThreadRun, hrun]
  rw [if_neg (not_not_intro hc), if_neg (not_not_intro hg), hp]
  dsimp only
  rw [if_neg (fun hcon => hpt' hcon.2), if_neg (fun hcon => hwt' hcon.2)]

/-- Witness for `claim_C5` on a concrete frame with load 1 against capacity
8: preview first, then writer. -/
theorem claim_C5_witness :
    (CaptureThreadRun bothSinksCfg [frameStep]).1 =
      [SinkEvent.preview 3 (some 7) 2, SinkEvent.writer 3 (some 7) 2] := by
  rw [claim_C5 bothSinksCfg frameStep [] 7 rfl rfl rfl rfl rfl]
  decide

/-- Claim C6 fails on the code: `CaptureThread` has no handler around the
sink calls, so when the preview sink throws on a frame, the writer sink never
receives that frame, the pending next frame is never processed, and the run
ends with the exception escaping the loop. -/
theorem claim_C6_bug :
    CaptureThreadRun bothSinksCfg [previewThrowStep, laterFrameStep]
      = ([SinkEvent.preview 10 (some 1) 5], LoopExit.sinkException) := by decide

/-- Claim C1 fails on the code: when the writer constructor throws during
`StartCapture`, the catch handler runs `SetError` then `StopCapture`, but the
state is still `Idle` at that point, so `StopCapture` returns immediately —
the call reports failure and the state is `Idle`, yet the already-built
capture source, queue and preview renderer are never destroyed. -/
theorem claim_C1_bug :
    (StartCapture writerFailEnv [] readyEngine plainOpts).1 = false ∧
    ((StartCapture writerFailEnv [] readyEngine plainOpts).2.2).state = EngState.Idle ∧
    ((StartCapture writerFailEnv [] readyEngine plainOpts).2.2).dvInput = true ∧
    ((StartCapture writerFailEnv [] readyEngine plainOpts).2.2).monitor = true ∧
    ((StartCapture writerFailEnv [] readyEngine plainOpts).2.2).queue ≠ none := by decide

/-- Counterexample to claim C2 as stated: `StartCapture` on a capturing
session does fail, but `EnsureDirectories` has already run before the state
check, so the missing output directory `a` is created — the call is not free
of side effects. -/
theorem claim_C2_counterexample :
    (StartCapture okEnv [] capturingEngine dirOpts).1 = false ∧
    (StartCapture okEnv [] capturingEngine dirOpts).2.1 = [['a']] := by decide

/-- Claim C2 (amended): on a session that is not `Idle` (with a device
configured and COM initialised, as in every reachable non-idle session),
`StartCapture` fails with the "Aufnahme läuft bereits." (capture already
running) error and changes nothing in the engine except the last-error slot —
state, collaborator handles and stored options are untouched — but the output
directory chain has already been created, because directory preparation runs
before the state check. -/
theorem claim_C2_amended (env : StartEnv) (fs : FS) (e : Engine) (o : WindvCaptureOptions)
    (hdev : e.device.isEmpty = false) (hcom : e.comInitialized = true)
    (hst : e.state ≠ EngState.Idle) :
    StartCapture env fs e o =
      (false, (EnsureDirectories fs (Normalize o).basePath).2,
       { e with lastError := "Aufnahme läuft bereits." }) := by
  simp only [StartCapture, hdev, hcom, SetError, Bool.false_eq_true, if_false, if_true]
  rw [if_pos hst]

/-- Witness for `claim_C2_amended` on a concrete capturing session. -/
theorem claim_C2_witness :
    StartCapture okEnv [] capturingEngine dirOpts =
      (false, (EnsureDirectories [] (Normalize dirOpts).basePath).2,
       { capturingEngine with lastError := "Aufnahme läuft bereits." }) :=
  claim_C2_amended okEnv [] capturingEngine dirOpts rfl rfl (by decide)

/-- Claim C3: `StopCapture` on an `Idle` session is a no-op (the whole
engine, collaborators and error slot included, is unchanged); and after any
`StopCapture` returns the state is `Idle`, `IsCapturing` is false, and no
consumer thread handle remains (assuming the `IdleNoThread` invariant, which
every modelled operation preserves). -/
theorem claim_C3 (e : Engine) (hinv : e.state = EngState.Idle → e.captureThread = false) :
    (e.state = EngState.Idle → StopCapture e = e) ∧
    (StopCapture e).state = EngState.Idle ∧
    IsCapturing (StopCapture e) = false ∧
    (StopCapture e).captureThread = false := by
  by_cases h : e.state = EngState.Idle
  · have hs : StopCapture e = e := by rw [StopCapture, if_pos h]
    refine ⟨fun _ => hs, ?_, ?_, ?_⟩
    · rw [hs]; exact h
    · rw [hs, IsCapturing, h]; rfl
    · rw [hs]; exact hinv h
  · have hs : StopCapture e
        = { e with
            state := EngState.Idle
            queue := none
            captureThread := false
            dvInput := false
            monitor := false
            writer := false } := by
      rw [StopCapture, if_neg h]
    refine ⟨fun hid => absurd hid h, ?_, ?_, ?_⟩
    · rw [hs]
    · rw [hs, IsCapturing]
      rfl
    · rw [hs]

/-- Witness for `claim_C3` on a concrete capturing engine and on the
freshly constructed idle engine. -/
theorem claim_C3_witness :
    (StopCapture capturingEngine).state = EngState.Idle ∧
    IsCapturing (StopCapture capturingEngine) = false ∧
    (StopCapture capturingEngine).captureThread = false ∧
    StopCapture engine0 = engine0 := by
  have h1 := claim_C3 capturingEngine (by decide)
  have h2 := claim_C3 engine0 (fun _ => rfl)
  exact ⟨h1.2.1, h1.2.2.1, h1.2.2.2, h2.1 rfl⟩

/-- Claim C9: the exported `WindvBridge_StartCapture` with a null options
pointer returns `-1` and leaves the filesystem and the entire engine —
including the last-error slot — untouched. -/
theorem claim_C9 (env : StartEnv) (fs : FS) (e : Engine) :
    WindvBridge_StartCapture none env fs e = (-1, fs, e) := rfl

/-- Claim C10: a frame delivered by the producer callback while no queue
exists is silently dropped — `HandleFrame` returns the engine unchanged,
recording no error and touching no state. -/
theorem claim_C10 (e : Engine) (d : Int) (b : Bool) (l : Nat) (hq : e.queue = none) :
    HandleFrame e d b l = e := by
  rw [HandleFrame, hq]

/-- Witness for `claim_C10` on the freshly constructed engine, which has no
queue. -/
theorem claim_C10_witness : HandleFrame engine0 5 false 3 = engine0 :=
  claim_C10 engine0 5 false 3 rfl

/-- Claim C7: option normalisation passes the two boolean flags through;
clamps a non-positive numeric suffix width to 0 (no suffix) and keeps a
positive one; replaces a non-positive queue capacity with the default 120 and
keeps a positive one; appends a path separator to an output directory whose
last character is not already one (and appends nothing when it is); and falls
back to the fixed default base name and default timestamp pattern when those
strings are null or empty. -/
theorem claim_C7 (o : WindvCaptureOptions) :
    ((Normalize o).type2Avi = o.type2_avi ∧ (Normalize o).enablePreview = o.enable_preview) ∧
    (o.numeric_suffix_digits ≤ 0 → (Normalize o).numericDigits = 0) ∧
    (0 < o.numeric_suffix_digits → (Normalize o).numericDigits = o.numeric_suffix_digits) ∧
    (o.queue_size ≤ 0 → (Normalize o).queueSize = 120) ∧
    (0 < o.queue_size → (Normalize o).queueSize = o.queue_size) ∧
    (∀ d c, o.output_directory = some d → d.getLast? = some c → isSep c = false →
      (Normalize o).basePath = d ++ '\\' :: basePart o.file_base_name) ∧
    (∀ d c, o.output_directory = some d → d.getLast? = some c → isSep c = true →
      (Normalize o).basePath = d ++ basePart o.file_base_name) ∧
    ((o.file_base_name = none ∨ o.file_base_name = some []) →
      (Normalize o).basePath = dirPart o.output_directory ++ defaultBaseName) ∧
    ((o.datetime_format = none ∨ o.datetime_format = some []) →
      (Normalize o).datetimeFormat = defaultDatetimeFormat) := by
  refine ⟨⟨rfl, rfl⟩, ?_, ?_, ?_, ?_, ?_, ?_, ?_, ?_⟩
  · intro h
    simp only [Normalize]
    rw [if_neg (not_lt.mpr h)]
  · intro h
    simp only [Normalize]
    rw [if_pos h]
  · intro h
    simp only [Normalize]
    rw [if_neg (not_lt.mpr h)]
  · intro h
    simp only [Normalize]
    rw [if_pos h]
  · intro d c hd hc hsep
    have hne : d.isEmpty = false := by
      cases d with
      | nil => simp [List.getLast?] at hc
      | cons x xs => rfl
    simp only [Normalize, dirPart, hd, hne, Bool.false_eq_true, if_false, hc]
    rw [hsep]
    simp
  · intro d c hd hc hsep
    have hne : d.isEmpty = false := by
      cases d with
      | nil => simp [List.getLast?] at hc
      | cons x xs => rfl
    simp only [Normalize, dirPart, hd, hne, Bool.false_eq_true, if_false, hc]
    rw [hsep]
    simp
  · intro h
    have hb : basePart o.file_base_name = defaultBaseName := by
      rcases h with h | h
      · rw [h]
        rfl
      · rw [h]
        rfl
    simp only [Normalize, hb]
  · intro h
    have hf : fmtPart o.datetime_format = defaultDatetimeFormat := by
      rcases h with h | h
      · rw [h]
        rfl
      · rw [h]
        rfl
    simp only [Normalize, hf]

/-- Witness for `claim_C7` on options exercising the fallbacks: negative
suffix width, zero queue size, directory without trailing separator, absent
base name, empty timestamp format. -/
theorem claim_C7_witness :
    (Normalize fallbackOpts).numericDigits = 0 ∧
    (Normalize fallbackOpts).queueSize = 120 ∧
    (Normalize fallbackOpts).basePath = ['a'] ++ '\\' :: basePart fallbackOpts.file_base_name ∧
    (Normalize fallbackOpts).datetimeFormat = defaultDatetimeFormat := by
  have h := claim_C7 fallbackOpts
  exact ⟨h.2.1 (by decide), h.2.2.2.1 (by decide),
    h.2.2.2.2.2.1 ['a'] 'a' rfl rfl rfl,
    h.2.2.2.2.2.2.2.2 (Or.inr rfl)⟩

theorem engine0_idleNoThread : IdleNoThread engine0 := fun _ => rfl

theorem stopCapture_idleNoThread (e : Engine) (h : IdleNoThread e) :
    IdleNoThread (StopCapture e) := by
  by_cases hs : e.state = EngState.Idle
  · rw [StopCapture, if_pos hs]
    exact h
  · rw [StopCapture, if_neg hs]
    intro _
    rfl

theorem handleFrame_idleNoThread (e : Engine) (d : Int) (b : Bool) (l : Nat)
    (h : IdleNoThread e) : IdleNoThread (HandleFrame e d b l) := by
  rw [HandleFrame]
  cases hq : e.queue with
  | none => exact h
  | some q => exact h

theorem startCapture_idleNoThread (env : StartEnv) (fs : FS) (e : Engine)
    (o : WindvCaptureOptions) (h : IdleNoThread e) :
    IdleNoThread (StartCapture env fs e o).2.2 := by
  by_cases h1 : e.device.isEmpty = true
  · simp only [StartCapture, h1, if_true]
    exact h
  · replace h1 := eq_false_of_ne_true h1
    by_cases h2 : e.comInitialized = true
    · simp only [StartCapture, h1, Bool.false_eq_true, if_false, h2, if_true]
      by_cases h3 : e.state ≠ EngState.Idle
      · rw [if_pos h3]
        exact h
      · rw [if_neg h3]
        by_cases h4 : env.throwSite = CtorThrow.atDvInput
        · rw [if_pos h4]
          exact stopCapture_idleNoThread _ h
        · rw [if_neg h4]
          by_cases h5 : env.throwSite = CtorThrow.atMonitor
              ∧ (Normalize o).enablePreview = true ∧ e.previewWindow.isSome = true
          · rw [if_pos h5]
            exact stopCapture_idleNoThread _ h
          · rw [if_neg h5]
            by_cases h6 : (Normalize o).enablePreview = true ∧ e.previewWindow.isSome = true
            · rw [if_pos h6]
              by_cases h7 : env.throwSite = CtorThrow.atWriter
              · rw [if_pos h7]
                exact stopCapture_idleNoThread _ h
              · rw [if_neg h7]
                by_cases h8 : ¬ env.threadOk = true
                · rw [if_pos h8]
                  exact stopCapture_idleNoThread _ (fun hid => by cases hid)
                · rw [if_neg h8]
                  intro hid
                  cases hid
            · rw [if_neg h6]
              by_cases h7 : env.throwSite = CtorThrow.atWriter
              · rw [if_pos h7]
                exact stopCapture_idleNoThread _ h
              · rw [if_neg h7]
                by_cases h8 : ¬ env.threadOk = true
                · rw [if_pos h8]
                  exact stopCapture_idleNoThread _ (fun hid => by cases hid)
                · rw [if_neg h8]
                  intro hid
                  cases hid
    · replace h2 := eq_false_of_ne_true h2
      by_cases h3 : env.coInitOk = true
      · simp only [StartCapture, h1, Bool.false_eq_true, if_false, h2, h3, if_true]
        by_cases h4 : e.state ≠ EngState.Idle
        · rw [if_pos h4]
          exact h
        · rw [if_neg h4]
          by_cases h5 : env.throwSite = CtorThrow.atDvInput
          · rw [if_pos h5]
            exact stopCapture_idleNoThread _ h
          · rw [if_neg h5]
            by_cases h6 : env.throwSite = CtorThrow.atMonitor
                ∧ (Normalize o).enablePreview = true ∧ e.previewWindow.isSome = true
            · rw [if_pos h6]
              exact stopCapture_idleNoThread _ h
            · rw [if_neg h6]
              by_cases h7 : (Normalize o).enablePreview = true ∧ e.previewWindow.isSome = true
              · rw [if_pos h7]
                by_cases h8 : env.throwSite = CtorThrow.atWriter
                · rw [if_pos h8]
                  exact stopCapture_idleNoThread _ h
                · rw [if_neg h8]
                  by_cases h9 : ¬ env.threadOk = true
                  · rw [if_pos h9]
                    exact stopCapture_idleNoThread _ (fun hid => by cases hid)
                  · rw [if_neg h9]
                    intro hid
                    cases hid
              · rw [if_neg h7]
                by_cases h8 : env.throwSite = CtorThrow.atWriter
                · rw [if_pos h8]
                  exact stopCapture_idleNoThread _ h
                · rw [if_neg h8]
                  by_cases h9 : ¬ env.threadOk = true
                  · rw [if_pos h9]
                    exact stopCapture_idleNoThread _ (fun hid => by cases hid)
                  · rw [if_neg h9]
                    intro hid
                    cases hid
      · simp only [StartCapture, h1, Bool.false_eq_true, if_false, h2, h3]
        exact h
